import Mathlib

/-!
Verification development for the LOGOS-ECOSYSTEM WASM facade layer
(`frontend/src/wasm/crypto.rs` and `frontend/src/wasm/image_processor.rs`).

The two Rust modules are thin adapters around external libraries
(`base64`, `aes-gcm`, `ed25519-dalek`, `pbkdf2`, `image`).  The adapter
logic — base64 transport, argument validation, error routing, the manual
3x3 convolution loop — is embedded concretely below.  The external
library calls, which the specification treats as trusted collaborators,
are abstracted as fields of `ExtCrypto` / `ImageLib` structures together
with the contracts their documentation guarantees.

Machine integers are modelled as `Nat`; bytes are `Nat` values with the
side condition `< 256`.  Rust `f32` kernel arithmetic in the convolution
is modelled over `ℚ` (exact arithmetic); the `as u8` cast of a value
already clamped to `[0,255]` is truncation toward zero, i.e. `Int.floor`.
Rust strings are modelled by their UTF-8 byte lists.
-/

/-! ### Base64 (the `base64` crate, `general_purpose::STANDARD` engine)

Standard alphabet, padding required, canonical padding and no trailing
bits on decode (the crate's `STANDARD` defaults). -/

def b64Alphabet : List Char :=
  "ABCDEFGHIJKLMNOPQRSTUVWXYZabcdefghijklmnopqrstuvwxyz0123456789+/".toList

/-- The character for a 6-bit group. -/
def sextetChar (n : Nat) : Char := b64Alphabet.getD n 'A'

def lookupIdx : List Char → Char → Nat → Option Nat
  | [], _, _ => none
  | a :: as, c, i => if a = c then some i else lookupIdx as c (i + 1)

/-- The 6-bit value of an alphabet character, `none` outside the alphabet. -/
def sextetVal (c : Char) : Option Nat := lookupIdx b64Alphabet c 0

/-- `general_purpose::STANDARD.encode`: 3 bytes to 4 chars, `=`-padded tail. -/
def b64encode : List Nat → List Char
  | [] => []
  | [a] => [sextetChar (a / 4), sextetChar (a % 4 * 16), '=', '=']
  | [a, b] =>
      [sextetChar (a / 4), sextetChar (a % 4 * 16 + b / 16),
       sextetChar (b % 16 * 4), '=']
  | a :: b :: c :: rest =>
      sextetChar (a / 4) :: sextetChar (a % 4 * 16 + b / 16) ::
      sextetChar (b % 16 * 4 + c / 64) :: sextetChar (c % 64) :: b64encode rest

/-- `general_purpose::STANDARD.decode`: strict decoding — length must be a
multiple of 4, padding only canonical and final, trailing bits rejected. -/
def b64decode : List Char → Option (List Nat)
  | [] => some []
  | p :: q :: r :: s :: rest => do
      let x ← sextetVal p
      let y ← sextetVal q
      if r = '=' then
        if s = '=' ∧ rest = [] ∧ y % 16 = 0 then
          some [x * 4 + y / 16]
        else none
      else do
        let z ← sextetVal r
        if s = '=' then
          if rest = [] ∧ z % 4 = 0 then
            some [x * 4 + y / 16, y % 16 * 16 + z / 4]
          else none
        else do
          let w ← sextetVal s
          let tail ← b64decode rest
          some ([x * 4 + y / 16, y % 16 * 16 + z / 4, z % 4 * 64 + w] ++ tail)
  | _ => none

/-- Bytes are `Nat`s below 256. -/
def isBytes (l : List Nat) : Prop := ∀ x ∈ l, x < 256

instance : DecidablePred isBytes := fun l =>
  inferInstanceAs (Decidable (∀ x ∈ l, x < 256))

theorem sextetVal_sextetChar : ∀ n, n < 64 → sextetVal (sextetChar n) = some n := by
  decide

theorem sextetChar_ne_pad : ∀ n, n < 64 → sextetChar n ≠ '=' := by
  decide

theorem b64_roundtrip : ∀ b : List Nat, isBytes b → b64decode (b64encode b) = some b := by
  intro b hb
  induction b using b64encode.induct with
  | case1 =>
      simp [b64encode, b64decode]
  | case2 a =>
      have ha : a < 256 := hb a (by simp)
      have h1 : a / 4 < 64 := by omega
      have h2 : a % 4 * 16 < 64 := by omega
      simp only [b64encode, b64decode, sextetVal_sextetChar _ h1,
        sextetVal_sextetChar _ h2, Option.bind_eq_bind, Option.some_bind]
      have : a % 4 * 16 % 16 = 0 := by omega
      simp [this]
      omega
  | case3 a b =>
      have ha : a < 256 := hb a (by simp)
      have hbb : b < 256 := hb b (by simp)
      have h1 : a / 4 < 64 := by omega
      have h2 : a % 4 * 16 + b / 16 < 64 := by omega
      have h3 : b % 16 * 4 < 64 := by omega
      simp only [b64encode, b64decode, Option.bind_eq_bind, Option.some_bind,
        sextetVal_sextetChar _ h1, sextetVal_sextetChar _ h2]
      rw [if_neg (sextetChar_ne_pad _ h3)]
      simp only [sextetVal_sextetChar _ h3, Option.some_bind, if_pos rfl]
      have : b % 16 * 4 % 4 = 0 := by omega
      simp [this]
      constructor <;> omega
  | case4 a b c rest ih =>
      have ha : a < 256 := hb a (by simp)
      have hbb : b < 256 := hb b (by simp)
      have hc : c < 256 := hb c (by simp)
      have hrest : isBytes rest := fun x hx => hb x (by simp [hx])
      have h1 : a / 4 < 64 := by omega
      have h2 : a % 4 * 16 + b / 16 < 64 := by omega
      have h3 : b % 16 * 4 + c / 64 < 64 := by omega
      have h4 : c % 64 < 64 := by omega
      simp only [b64encode, b64decode, Option.bind_eq_bind, Option.some_bind,
        sextetVal_sextetChar _ h1, sextetVal_sextetChar _ h2]
      rw [if_neg (sextetChar_ne_pad _ h3)]
      simp only [sextetVal_sextetChar _ h3, Option.some_bind]
      rw [if_neg (sextetChar_ne_pad _ h4)]
      simp only [sextetVal_sextetChar _ h4, Option.some_bind, ih hrest,
        Option.some_bind]
      have e1 : a / 4 * 4 + (a % 4 * 16 + b / 16) / 16 = a := by omega
      have e2 : (a % 4 * 16 + b / 16) % 16 * 16 + (b % 16 * 4 + c / 64) / 4 = b := by
        omega
      have e3 : (b % 16 * 4 + c / 64) % 4 * 64 + c % 64 = c := by omega
      rw [e1, e2, e3]
      rfl

/-! ### Crypto facade (`crypto.rs`, `CryptoModule`)

Result type of a facade call seen from the host: a successful value, a
`JsValue` error string, or a Rust panic (which aborts the WASM call).
`GenericArray::from_slice` — used by `Key::<Aes256Gcm>::from_slice` —
panics when the slice length differs from the expected length. -/

inductive Outcome (α : Type) where
  | ok : α → Outcome α
  | err : String → Outcome α
  | aborted : String → Outcome α
deriving DecidableEq, Repr

/-- External cryptographic libraries (`aes-gcm`, `ed25519-dalek`,
`pbkdf2`, `std::string::String::from_utf8`), abstracted with the
contracts their documentation guarantees.  Keys, nonces, messages,
ciphertexts and parsed values are byte lists. -/
structure ExtCrypto where
  aeadEncrypt : List Nat → List Nat → List Nat → Option (List Nat)
  aeadDecrypt : List Nat → List Nat → List Nat → Option (List Nat)
  sigParse : List Nat → Option (List Nat)
  pubParse : List Nat → Option (List Nat)
  edVerify : List Nat → List Nat → List Nat → Bool
  fromUtf8 : List Nat → Option (List Nat)
  pbkdf2Hmac : List Nat → List Nat → Nat → Nat → List Nat
  pbkdf2_length : ∀ pw salt iters n, (pbkdf2Hmac pw salt iters n).length = n
  pbkdf2_bytes : ∀ pw salt iters n, isBytes (pbkdf2Hmac pw salt iters n)
  aeadEncrypt_bytes : ∀ k nv pt ct, isBytes pt → aeadEncrypt k nv pt = some ct →
    isBytes ct
  aead_roundtrip : ∀ k nv pt ct, aeadEncrypt k nv pt = some ct →
    aeadDecrypt k nv ct = some pt

/-- `CryptoModule::generate_aes_key`, with the 32 random bytes drawn from
`OsRng` made an explicit argument. -/
def generate_aes_key (raw : List Nat) : List Char := b64encode raw

/-- `CryptoModule::encrypt_aes`.  The 12 random nonce bytes are an explicit
argument.  `Key::<Aes256Gcm>::from_slice` panics unless the decoded key has
exactly 32 bytes; the Rust code performs no length check of its own. -/
def encrypt_aes (ext : ExtCrypto) (plaintext : List Nat) (key_base64 : List Char)
    (nonce_bytes : List Nat) : Outcome (List Char) :=
  match b64decode key_base64 with
  | none => .err "Invalid key"
  | some key_bytes =>
    if key_bytes.length = 32 then
      match ext.aeadEncrypt key_bytes nonce_bytes plaintext with
      | none => .err "Encryption failed"
      | some ciphertext => .ok (b64encode (nonce_bytes ++ ciphertext))
    else .aborted "GenericArray.from_slice: slice length mismatch"

/-- `CryptoModule::decrypt_aes`.  Key decode, ciphertext decode, 12-byte
length check, split at 12, then `Key::from_slice` (panics on length ≠ 32),
AEAD decrypt, UTF-8 conversion. -/
def decrypt_aes (ext : ExtCrypto) (ciphertext_base64 key_base64 : List Char) :
    Outcome (List Nat) :=
  match b64decode key_base64 with
  | none => .err "Invalid key"
  | some key_bytes =>
    match b64decode ciphertext_base64 with
    | none => .err "Invalid ciphertext"
    | some combined =>
      if combined.length < 12 then .err "Invalid ciphertext length"
      else
        if key_bytes.length = 32 then
          match ext.aeadDecrypt key_bytes (combined.take 12) (combined.drop 12) with
          | none => .err "Decryption failed"
          | some plaintext =>
            match ext.fromUtf8 plaintext with
            | none => .err "Invalid UTF-8"
            | some s => .ok s
        else .aborted "GenericArray.from_slice: slice length mismatch"

/-- `CryptoModule::verify_ed25519`: base64-decode signature, base64-decode
public key, `Signature::from_bytes`, `PublicKey::from_bytes`, then
`verify(...).is_ok()`. -/
def verify_ed25519 (ext : ExtCrypto) (message : List Nat)
    (signature_base64 public_key_base64 : List Char) : Outcome Bool :=
  match b64decode signature_base64 with
  | none => .err "Invalid signature"
  | some signature_bytes =>
    match b64decode public_key_base64 with
    | none => .err "Invalid public key"
    | some public_bytes =>
      match ext.sigParse signature_bytes with
      | none => .err "Invalid signature format"
      | some signature =>
        match ext.pubParse public_bytes with
        | none => .err "Invalid public key format"
        | some public_key => .ok (ext.edVerify public_key message signature)

/-- `CryptoModule::derive_key_pbkdf2`: fills a 32-byte buffer with
`pbkdf2_hmac::<Sha256>` and base64-encodes it.  Total — returns a plain
`String`, performing no validation of the iteration count. -/
def derive_key_pbkdf2 (ext : ExtCrypto) (password salt : List Nat)
    (iterations : Nat) : List Char :=
  b64encode (ext.pbkdf2Hmac password salt iterations 32)

/-! ### Image facade (`image_processor.rs`, `ImageProcessor`)

A decoded image in its RGBA8 view: dimensions plus a pixel map.  The
`image` crate's decoder, encoders and whole-image transforms are external
collaborators, abstracted in `ImageLib`. -/

structure Rgba where
  r : Nat
  g : Nat
  b : Nat
  a : Nat
deriving DecidableEq, Repr

structure Rgba8Image where
  width : Nat
  height : Nat
  pix : Nat → Nat → Rgba

/-- `image::ImageOutputFormat` (the variants this adapter uses). -/
inductive ImageOutputFormat where
  | Png : ImageOutputFormat
  | Jpeg : Nat → ImageOutputFormat
  | WebP : ImageOutputFormat
  | Bmp : ImageOutputFormat
deriving DecidableEq, Repr

/-- The external `image` crate: `load_from_memory` (composed with
`to_rgba8`, which preserves dimensions), `write_to`, and the lossless
rotations. -/
structure ImageLib where
  load : List Nat → Option Rgba8Image
  writeTo : Rgba8Image → ImageOutputFormat → Option (List Nat)
  rotate90 : Rgba8Image → Rgba8Image
  rotate180 : Rgba8Image → Rgba8Image
  rotate270 : Rgba8Image → Rgba8Image

/-- `ImageProcessor::rotate`: decode, match on the degree value (only
90/180/270 accepted), re-encode as PNG. -/
def rotate (ext : ImageLib) (image_data : List Nat) (degrees : Nat) :
    Except String (List Nat) :=
  match ext.load image_data with
  | none => .error "Failed to load image"
  | some img =>
    if degrees = 90 then
      match ext.writeTo (ext.rotate90 img) .Png with
      | none => .error "Failed to encode image"
      | some out => .ok out
    else if degrees = 180 then
      match ext.writeTo (ext.rotate180 img) .Png with
      | none => .error "Failed to encode image"
      | some out => .ok out
    else if degrees = 270 then
      match ext.writeTo (ext.rotate270 img) .Png with
      | none => .error "Failed to encode image"
      | some out => .ok out
    else .error "Only 90, 180, 270 degree rotations supported"

/-- The format dispatch of `convert_format`: `match format.to_lowercase()`.
Rust's `to_lowercase` is modelled per-character; the five recognised names
are pure ASCII, where the two lowercasings agree. -/
def chooseFormat (lower : List Char) : Option ImageOutputFormat :=
  if lower = "png".toList then some .Png
  else if lower = "jpeg".toList ∨ lower = "jpg".toList then some (.Jpeg 85)
  else if lower = "webp".toList then some .WebP
  else if lower = "bmp".toList then some .Bmp
  else none

/-- `ImageProcessor::convert_format`: decode, dispatch on the lowercased
format name, encode with the chosen codec. -/
def convert_format (ext : ImageLib) (image_data : List Nat)
    (format : List Char) : Except String (List Nat) :=
  match ext.load image_data with
  | none => .error "Failed to load image"
  | some img =>
    match chooseFormat (format.map Char.toLower) with
    | none => .error "Unsupported format"
    | some output_format =>
      match ext.writeTo img output_format with
      | none => .error "Failed to convert image"
      | some out => .ok out

/-- `r.max(0.0).min(255.0) as u8`: clamp to `[0,255]`, then the `as u8`
cast truncates toward zero (floor on the non-negative result). -/
def clampToByte (q : ℚ) : Nat := (Int.floor (min 255 (max 0 q))).toNat

/-- The inner 3x3 accumulation of `apply_convolution` at pixel `(x, y)`:
`kernel[ky*3 + kx]` weights the source pixel `(x + kx - 1, y + ky - 1)`,
summing the R, G, B channels separately; alpha is copied from `(x, y)`. -/
def convPix (rgba : Rgba8Image) (kernel : List ℚ) (x y : Nat) : Rgba :=
  let acc := (List.range 3).foldl (fun acc ky =>
    (List.range 3).foldl (fun acc2 kx =>
      let p := rgba.pix (x + kx - 1) (y + ky - 1)
      let kv := kernel.getD (ky * 3 + kx) 0
      (acc2.1 + (p.r : ℚ) * kv, acc2.2.1 + (p.g : ℚ) * kv,
       acc2.2.2 + (p.b : ℚ) * kv)) acc) ((0 : ℚ), (0 : ℚ), (0 : ℚ))
  ⟨clampToByte acc.1, clampToByte acc.2.1, clampToByte acc.2.2,
   (rgba.pix x y).a⟩

/-- `output.put_pixel x y pixel` on a buffer viewed as a pixel map. -/
def putPixel (buf : Nat → Nat → Rgba) (x y : Nat) (p : Rgba) :
    Nat → Nat → Rgba :=
  fun i j => if i = x ∧ j = y then p else buf i j

/-- The double loop of `apply_convolution`: `ImageBuffer::new` initialises
every pixel to zero; `for y in 1..height-1 { for x in 1..width-1 { ... } }`
writes the convolved interior pixels.  `u32` subtraction agrees with `Nat`
subtraction here for all dimensions ≥ 1. -/
def convolutionBuffer (rgba : Rgba8Image) (kernel : List ℚ) : Rgba8Image :=
  let w := rgba.width
  let h := rgba.height
  let init : Nat → Nat → Rgba := fun _ _ => ⟨0, 0, 0, 0⟩
  let final := (List.range' 1 (h - 2)).foldl (fun buf y =>
    (List.range' 1 (w - 2)).foldl
      (fun b x => putPixel b x y (convPix rgba kernel x y)) buf) init
  ⟨w, h, final⟩

/-- `ImageProcessor::apply_convolution`: kernel length check first (before
any decode), then decode, run the convolution loops, PNG-encode. -/
def apply_convolution (ext : ImageLib) (image_data : List Nat)
    (kernel : List ℚ) : Except String (List Nat) :=
  if kernel.length ≠ 9 then .error "Kernel must be 3x3 (9 values)"
  else
    match ext.load image_data with
    | none => .error "Failed to load image"
    | some img =>
      match ext.writeTo (convolutionBuffer img kernel) .Png with
      | none => .error "Failed to encode image"
      | some out => .ok out

/-- `ImageProcessor::to_base64`. -/
def to_base64 (image_data : List Nat) : List Char := b64encode image_data

/-- `ImageProcessor::from_base64`. -/
def from_base64 (base64_str : List Char) : Except String (List Nat) :=
  match b64decode base64_str with
  | none => .error "Invalid base64"
  | some bytes => .ok bytes

/-! ### Characterising the convolution loops -/

theorem foldl_putPixel_row (y0 : Nat) (f : Nat → Rgba) :
    ∀ (xs : List Nat) (buf : Nat → Nat → Rgba) (i j : Nat),
    (xs.foldl (fun b x => putPixel b x y0 (f x)) buf) i j =
    if i ∈ xs ∧ j = y0 then f i else buf i j := by
  intro xs
  induction xs with
  | nil => intro buf i j; simp
  | cons x xs ih =>
    intro buf i j
    simp only [List.foldl_cons]
    rw [ih]
    by_cases hij : i ∈ xs ∧ j = y0
    · rw [if_pos hij, if_pos ⟨List.mem_cons_of_mem _ hij.1, hij.2⟩]
    · rw [if_neg hij]
      show (if i = x ∧ j = y0 then f x else buf i j) = _
      by_cases hx : i = x ∧ j = y0
      · rw [if_pos hx, if_pos ⟨by simp [hx.1], hx.2⟩, hx.1]
      · rw [if_neg hx, if_neg ?hc]
        case hc =>
          intro hc
          rcases List.mem_cons.mp hc.1 with h | h
          · exact hx ⟨h, hc.2⟩
          · exact hij ⟨h, hc.2⟩

theorem foldl_putPixel_grid (g : Nat → Nat → Rgba) (xs : List Nat) :
    ∀ (ys : List Nat) (buf : Nat → Nat → Rgba) (i j : Nat),
    (ys.foldl (fun buf y =>
      xs.foldl (fun b x => putPixel b x y (g x y)) buf) buf) i j =
    if i ∈ xs ∧ j ∈ ys then g i j else buf i j := by
  intro ys
  induction ys with
  | nil => intro buf i j; simp
  | cons y ys ih =>
    intro buf i j
    simp only [List.foldl_cons]
    rw [ih]
    by_cases h1 : i ∈ xs ∧ j ∈ ys
    · rw [if_pos h1, if_pos ⟨h1.1, List.mem_cons_of_mem _ h1.2⟩]
    · rw [if_neg h1, foldl_putPixel_row y (fun x => g x y) xs buf i j]
      by_cases h2 : i ∈ xs ∧ j = y
      · rw [if_pos h2, if_pos ⟨h2.1, by simp [h2.2]⟩, h2.2]
      · rw [if_neg h2, if_neg ?hc]
        case hc =>
          intro hc
          rcases List.mem_cons.mp hc.2 with h | h
          · exact h2 ⟨hc.1, h⟩
          · exact h1 ⟨hc.1, h⟩

/-- Pointwise content of the convolution output buffer: the convolved
value on the interior, the `ImageBuffer::new` default `(0,0,0,0)` on the
one-pixel border and everywhere else. -/
theorem convolutionBuffer_pix (rgba : Rgba8Image) (kernel : List ℚ)
    (i j : Nat) :
    (convolutionBuffer rgba kernel).pix i j =
    if 1 ≤ i ∧ i + 1 < rgba.width ∧ 1 ≤ j ∧ j + 1 < rgba.height then
      convPix rgba kernel i j
    else ⟨0, 0, 0, 0⟩ := by
  simp only [convolutionBuffer]
  rw [foldl_putPixel_grid (fun x y => convPix rgba kernel x y)]
  have hcond : (i ∈ List.range' 1 (rgba.width - 2) ∧
      j ∈ List.range' 1 (rgba.height - 2)) ↔
      (1 ≤ i ∧ i + 1 < rgba.width ∧ 1 ≤ j ∧ j + 1 < rgba.height) := by
    rw [List.mem_range'_1, List.mem_range'_1]
    omega
  simp only [hcond]

/-- Unrolling the 3x3 accumulation: row-major weights against the
3x3 neighbourhood, channelwise, alpha copied from the centre. -/
theorem convPix_explicit (rgba : Rgba8Image) (kernel : List ℚ) (x y : Nat) :
    convPix rgba kernel x y =
    ⟨clampToByte (kernel.getD 0 0 * ((rgba.pix (x - 1) (y - 1)).r : ℚ)
        + kernel.getD 1 0 * ((rgba.pix x (y - 1)).r : ℚ)
        + kernel.getD 2 0 * ((rgba.pix (x + 1) (y - 1)).r : ℚ)
        + kernel.getD 3 0 * ((rgba.pix (x - 1) y).r : ℚ)
        + kernel.getD 4 0 * ((rgba.pix x y).r : ℚ)
        + kernel.getD 5 0 * ((rgba.pix (x + 1) y).r : ℚ)
        + kernel.getD 6 0 * ((rgba.pix (x - 1) (y + 1)).r : ℚ)
        + kernel.getD 7 0 * ((rgba.pix x (y + 1)).r : ℚ)
        + kernel.getD 8 0 * ((rgba.pix (x + 1) (y + 1)).r : ℚ)),
     clampToByte (kernel.getD 0 0 * ((rgba.pix (x - 1) (y - 1)).g : ℚ)
        + kernel.getD 1 0 * ((rgba.pix x (y - 1)).g : ℚ)
        + kernel.getD 2 0 * ((rgba.pix (x + 1) (y - 1)).g : ℚ)
        + kernel.getD 3 0 * ((rgba.pix (x - 1) y).g : ℚ)
        + kernel.getD 4 0 * ((rgba.pix x y).g : ℚ)
        + kernel.getD 5 0 * ((rgba.pix (x + 1) y).g : ℚ)
        + kernel.getD 6 0 * ((rgba.pix (x - 1) (y + 1)).g : ℚ)
        + kernel.getD 7 0 * ((rgba.pix x (y + 1)).g : ℚ)
        + kernel.getD 8 0 * ((rgba.pix (x + 1) (y + 1)).g : ℚ)),
     clampToByte (kernel.getD 0 0 * ((rgba.pix (x - 1) (y - 1)).b : ℚ)
        + kernel.getD 1 0 * ((rgba.pix x (y - 1)).b : ℚ)
        + kernel.getD 2 0 * ((rgba.pix (x + 1) (y - 1)).b : ℚ)
        + kernel.getD 3 0 * ((rgba.pix (x - 1) y).b : ℚ)
        + kernel.getD 4 0 * ((rgba.pix x y).b : ℚ)
        + kernel.getD 5 0 * ((rgba.pix (x + 1) y).b : ℚ)
        + kernel.getD 6 0 * ((rgba.pix (x - 1) (y + 1)).b : ℚ)
        + kernel.getD 7 0 * ((rgba.pix x (y + 1)).b : ℚ)
        + kernel.getD 8 0 * ((rgba.pix (x + 1) (y + 1)).b : ℚ)),
     (rgba.pix x y).a⟩ := by
  have e0 : ∀ z : Nat, z + 0 - 1 = z - 1 := fun z => rfl
  have e1 : ∀ z : Nat, z + 1 - 1 = z := fun z => rfl
  have e2 : ∀ z : Nat, z + 2 - 1 = z + 1 := fun z => rfl
  unfold convPix
  simp only [show List.range 3 = [0, 1, 2] from rfl, List.foldl_cons,
    List.foldl_nil, e0, e1, e2, Nat.reduceMul, Nat.reduceAdd]
  have h4 : ∀ (u1 u2 u3 v1 v2 v3 : ℚ) (c : Nat), u1 = v1 → u2 = v2 → u3 = v3 →
      Rgba.mk (clampToByte u1) (clampToByte u2) (clampToByte u3) c =
      Rgba.mk (clampToByte v1) (clampToByte v2) (clampToByte v3) c := by
    intro u1 u2 u3 v1 v2 v3 c hu1 hu2 hu3
    rw [hu1, hu2, hu3]
  exact h4 _ _ _ _ _ _ _ (by ring) (by ring) (by ring)

/-! ### Concrete library instances used to exercise the theorems -/

def img2x2 : Rgba8Image := ⟨2, 2, fun _ _ => ⟨5, 6, 7, 8⟩⟩

def dummyImageLib : ImageLib where
  load := fun _ => some img2x2
  writeTo := fun _ _ => some [1, 2, 3]
  rotate90 := id
  rotate180 := id
  rotate270 := id

def dummyExtCrypto : ExtCrypto where
  aeadEncrypt := fun _ _ pt => some pt
  aeadDecrypt := fun _ _ ct => some ct
  sigParse := fun b => if b.length = 64 then some b else none
  pubParse := fun b => if b.length = 32 then some b else none
  edVerify := fun _ _ _ => false
  fromUtf8 := fun b => some b
  pbkdf2Hmac := fun _ _ _ n => List.replicate n 0
  pbkdf2_length := fun _ _ _ n => by simp
  pbkdf2_bytes := fun _ _ _ n x hx => by
    rw [List.eq_of_mem_replicate hx]; omega
  aeadEncrypt_bytes := fun k nv pt ct hpt h => by cases h; exact hpt
  aead_roundtrip := fun k nv pt ct h => by cases h; rfl

/-! ### Claim theorems: image facade -/

/-- C5: `rotate` succeeds only for the degree arguments 90, 180 and 270;
for a decodable image and any other degree value it returns the rotation
error without invoking any rotation transform. -/
theorem rotate_spec :
    (∀ (ext : ImageLib) (image_data : List Nat) (degrees : Nat)
       (out : List Nat), rotate ext image_data degrees = .ok out →
       degrees = 90 ∨ degrees = 180 ∨ degrees = 270) ∧
    (∀ (ext : ImageLib) (image_data : List Nat) (degrees : Nat)
       (img : Rgba8Image), ext.load image_data = some img →
       degrees ≠ 90 → degrees ≠ 180 → degrees ≠ 270 →
       rotate ext image_data degrees =
         .error "Only 90, 180, 270 degree rotations supported") := by
  constructor
  · intro ext image_data degrees out h
    by_cases h90 : degrees = 90
    · exact Or.inl h90
    by_cases h180 : degrees = 180
    · exact Or.inr (Or.inl h180)
    by_cases h270 : degrees = 270
    · exact Or.inr (Or.inr h270)
    exfalso
    cases hload : ext.load image_data with
    | none =>
      simp only [rotate, hload] at h
      exact absurd h (by simp)
    | some img =>
      simp only [rotate, hload] at h
      rw [if_neg h90, if_neg h180, if_neg h270] at h
      exact absurd h (by simp)
  · intro ext image_data degrees img hload h90 h180 h270
    simp only [rotate, hload]
    rw [if_neg h90, if_neg h180, if_neg h270]

/-- C5 witness: `rotate(img, 45)` on a decodable image is rejected. -/
theorem rotate_spec_witness :
    rotate dummyImageLib [0] 45 =
      .error "Only 90, 180, 270 degree rotations supported" :=
  rotate_spec.2 dummyImageLib [0] 45 img2x2 rfl (by decide) (by decide)
    (by decide)

/-- C6: `convert_format` matches the format name case-insensitively; names
outside {png, jpeg, jpg, webp, bmp} give the "Unsupported format" error,
jpeg/jpg encode at fixed quality 85, and every accepted name avoids the
"Unsupported format" error (no silent fallback). -/
theorem convert_format_spec :
    ∀ (ext : ImageLib) (image_data : List Nat) (img : Rgba8Image)
      (format : List Char), ext.load image_data = some img →
    ((List.map Char.toLower format ≠ "png".toList ∧
      List.map Char.toLower format ≠ "jpeg".toList ∧
      List.map Char.toLower format ≠ "jpg".toList ∧
      List.map Char.toLower format ≠ "webp".toList ∧
      List.map Char.toLower format ≠ "bmp".toList) →
      convert_format ext image_data format = .error "Unsupported format") ∧
    ((List.map Char.toLower format = "jpeg".toList ∨
      List.map Char.toLower format = "jpg".toList) →
      convert_format ext image_data format =
        match ext.writeTo img (.Jpeg 85) with
        | none => .error "Failed to convert image"
        | some out => .ok out) ∧
    ((List.map Char.toLower format = "png".toList ∨
      List.map Char.toLower format = "jpeg".toList ∨
      List.map Char.toLower format = "jpg".toList ∨
      List.map Char.toLower format = "webp".toList ∨
      List.map Char.toLower format = "bmp".toList) →
      convert_format ext image_data format ≠ .error "Unsupported format") := by
  intro ext image_data img format hload
  refine ⟨?_, ?_, ?_⟩
  · intro ⟨hp, hje, hjg, hw, hb⟩
    simp only [convert_format, chooseFormat, hload]
    rw [if_neg hp, if_neg (by rw [not_or]; exact ⟨hje, hjg⟩),
      if_neg hw, if_neg hb]
  · intro hj
    have hp : List.map Char.toLower format ≠ "png".toList := by
      rcases hj with hj | hj <;> rw [hj] <;> decide
    simp only [convert_format, chooseFormat, hload]
    rw [if_neg hp, if_pos hj]
  · intro hm
    have hcf : ∃ f, chooseFormat (List.map Char.toLower format) = some f := by
      rcases hm with hm | hm | hm | hm | hm <;> rw [hm] <;> exact ⟨_, rfl⟩
    obtain ⟨f, hf⟩ := hcf
    simp only [convert_format, hload, hf]
    cases hwr : ext.writeTo img f <;> simp

/-- C6 witness: "JPEG" is accepted case-insensitively at quality 85,
"gif" is rejected. -/
theorem convert_format_spec_witness :
    convert_format dummyImageLib [0] "JPEG".toList = .ok [1, 2, 3] ∧
    convert_format dummyImageLib [0] "gif".toList =
      .error "Unsupported format" :=
  ⟨(convert_format_spec dummyImageLib [0] img2x2 "JPEG".toList rfl).2.1
      (Or.inl (by decide)),
   (convert_format_spec dummyImageLib [0] img2x2 "gif".toList rfl).1
      (by refine ⟨?_, ?_, ?_, ?_, ?_⟩ <;> decide)⟩

/-- C3: `apply_convolution` rejects any kernel whose length is not 9
before any pixel work and before attempting to decode the image (the
result is the kernel error for every decoder behaviour); the convolution
buffer has the source dimensions, each interior pixel's R, G, B channels
are the row-major 3x3 weighted sums of the source neighbourhood clamped
to [0,255], interior alpha is copied from the source pixel, and the
one-pixel border keeps the buffer's initialised default `(0,0,0,0)`; for
a 9-element kernel and a decodable image the encoded buffer is returned. -/
theorem apply_convolution_spec :
    (∀ (ext : ImageLib) (image_data : List Nat) (kernel : List ℚ),
       kernel.length ≠ 9 →
       apply_convolution ext image_data kernel =
         .error "Kernel must be 3x3 (9 values)") ∧
    (∀ (rgba : Rgba8Image) (kernel : List ℚ),
       convolutionBuffer rgba kernel =
       ⟨rgba.width, rgba.height, fun x y =>
         if 1 ≤ x ∧ x + 1 < rgba.width ∧ 1 ≤ y ∧ y + 1 < rgba.height then
           ⟨clampToByte (kernel.getD 0 0 * ((rgba.pix (x - 1) (y - 1)).r : ℚ)
              + kernel.getD 1 0 * ((rgba.pix x (y - 1)).r : ℚ)
              + kernel.getD 2 0 * ((rgba.pix (x + 1) (y - 1)).r : ℚ)
              + kernel.getD 3 0 * ((rgba.pix (x - 1) y).r : ℚ)
              + kernel.getD 4 0 * ((rgba.pix x y).r : ℚ)
              + kernel.getD 5 0 * ((rgba.pix (x + 1) y).r : ℚ)
              + kernel.getD 6 0 * ((rgba.pix (x - 1) (y + 1)).r : ℚ)
              + kernel.getD 7 0 * ((rgba.pix x (y + 1)).r : ℚ)
              + kernel.getD 8 0 * ((rgba.pix (x + 1) (y + 1)).r : ℚ)),
            clampToByte (kernel.getD 0 0 * ((rgba.pix (x - 1) (y - 1)).g : ℚ)
              + kernel.getD 1 0 * ((rgba.pix x (y - 1)).g : ℚ)
              + kernel.getD 2 0 * ((rgba.pix (x + 1) (y - 1)).g : ℚ)
              + kernel.getD 3 0 * ((rgba.pix (x - 1) y).g : ℚ)
              + kernel.getD 4 0 * ((rgba.pix x y).g : ℚ)
              + kernel.getD 5 0 * ((rgba.pix (x + 1) y).g : ℚ)
              + kernel.getD 6 0 * ((rgba.pix (x - 1) (y + 1)).g : ℚ)
              + kernel.getD 7 0 * ((rgba.pix x (y + 1)).g : ℚ)
              + kernel.getD 8 0 * ((rgba.pix (x + 1) (y + 1)).g : ℚ)),
            clampToByte (kernel.getD 0 0 * ((rgba.pix (x - 1) (y - 1)).b : ℚ)
              + kernel.getD 1 0 * ((rgba.pix x (y - 1)).b : ℚ)
              + kernel.getD 2 0 * ((rgba.pix (x + 1) (y - 1)).b : ℚ)
              + kernel.getD 3 0 * ((rgba.pix (x - 1) y).b : ℚ)
              + kernel.getD 4 0 * ((rgba.pix x y).b : ℚ)
              + kernel.getD 5 0 * ((rgba.pix (x + 1) y).b : ℚ)
              + kernel.getD 6 0 * ((rgba.pix (x - 1) (y + 1)).b : ℚ)
              + kernel.getD 7 0 * ((rgba.pix x (y + 1)).b : ℚ)
              + kernel.getD 8 0 * ((rgba.pix (x + 1) (y + 1)).b : ℚ)),
            (rgba.pix x y).a⟩
         else ⟨0, 0, 0, 0⟩⟩) ∧
    (∀ (ext : ImageLib) (image_data : List Nat) (kernel : List ℚ)
       (img : Rgba8Image) (out : List Nat),
       kernel.length = 9 → ext.load image_data = some img →
       ext.writeTo (convolutionBuffer img kernel) .Png = some out →
       apply_convolution ext image_data kernel = .ok out) := by
  refine ⟨?_, ?_, ?_⟩
  · intro ext image_data kernel h9
    simp only [apply_convolution, if_pos h9]
  · intro rgba kernel
    have hpix : (convolutionBuffer rgba kernel).pix = fun x y =>
        if 1 ≤ x ∧ x + 1 < rgba.width ∧ 1 ≤ y ∧ y + 1 < rgba.height then
          convPix rgba kernel x y
        else ⟨0, 0, 0, 0⟩ :=
      funext fun x => funext fun y => convolutionBuffer_pix rgba kernel x y
    calc convolutionBuffer rgba kernel
        = ⟨rgba.width, rgba.height, (convolutionBuffer rgba kernel).pix⟩ := rfl
      _ = _ := by
          rw [hpix]
          refine congrArg (Rgba8Image.mk rgba.width rgba.height) ?_
          funext x y
          by_cases hin : 1 ≤ x ∧ x + 1 < rgba.width ∧ 1 ≤ y ∧ y + 1 < rgba.height
          · rw [if_pos hin, if_pos hin]
            exact convPix_explicit rgba kernel x y
          · rw [if_neg hin, if_neg hin]
  · intro ext image_data kernel img out h9 hload hwrite
    simp only [apply_convolution, h9, hload, hwrite]
    simp

/-- C3 witness: a length-0 kernel is rejected; a length-9 kernel on a
decodable image yields the encoded convolution buffer. -/
theorem apply_convolution_spec_witness :
    apply_convolution dummyImageLib [] [] =
      .error "Kernel must be 3x3 (9 values)" ∧
    apply_convolution dummyImageLib [0] (List.replicate 9 (1 : ℚ)) =
      .ok [1, 2, 3] :=
  ⟨apply_convolution_spec.1 dummyImageLib [] [] (by decide),
   apply_convolution_spec.2.2 dummyImageLib [0] (List.replicate 9 (1 : ℚ))
     img2x2 [1, 2, 3] (by simp) rfl rfl⟩

/-- C10: for a decodable image with width or height at most 2 and a
9-element kernel, the interior loops of `apply_convolution` run zero
iterations: the buffer keeps the source dimensions with every pixel at
the initialised default `(0,0,0,0)`, and the call succeeds, returning the
encoding of that default buffer. -/
theorem apply_convolution_small_image :
    ∀ (ext : ImageLib) (image_data : List Nat) (kernel : List ℚ)
      (img : Rgba8Image),
    kernel.length = 9 → ext.load image_data = some img →
    1 ≤ img.width → 1 ≤ img.height → (img.width ≤ 2 ∨ img.height ≤ 2) →
    convolutionBuffer img kernel =
      ⟨img.width, img.height, fun _ _ => ⟨0, 0, 0, 0⟩⟩ ∧
    (∀ out : List Nat,
      ext.writeTo (convolutionBuffer img kernel) .Png = some out →
      apply_convolution ext image_data kernel = .ok out) := by
  intro ext image_data kernel img h9 hload hw hh hsmall
  constructor
  · calc convolutionBuffer img kernel
        = ⟨img.width, img.height, (convolutionBuffer img kernel).pix⟩ := rfl
      _ = _ := by
          refine congrArg (Rgba8Image.mk img.width img.height) ?_
          funext x y
          rw [convolutionBuffer_pix]
          rw [if_neg ?hout]
          case hout =>
            intro ⟨h1, h2, h3, h4⟩
            omega
  · intro out hwrite
    simp only [apply_convolution, h9, hload, hwrite]
    simp

/-- C10 witness: a 2x2 image convolved with a length-9 kernel gives the
all-default buffer and a successful call. -/
theorem apply_convolution_small_image_witness :
    convolutionBuffer img2x2 (List.replicate 9 (1 : ℚ)) =
      ⟨2, 2, fun _ _ => ⟨0, 0, 0, 0⟩⟩ ∧
    apply_convolution dummyImageLib [0] (List.replicate 9 (1 : ℚ)) =
      .ok [1, 2, 3] := by
  have h := apply_convolution_small_image dummyImageLib [0]
    (List.replicate 9 (1 : ℚ)) img2x2 (by simp) rfl (by decide) (by decide)
    (Or.inl (by decide))
  exact ⟨h.1, h.2 [1, 2, 3] rfl⟩

/-! ### Claim theorems: crypto facade -/

/-- C2: with a validly decoded key, `decrypt_aes` on an envelope that
decodes to fewer than 12 bytes returns the length error for every AEAD
behaviour — the decryption step is never reached. -/
theorem decrypt_aes_short_envelope :
    ∀ (ext : ExtCrypto) (ciphertext_base64 key_base64 : List Char)
      (key_bytes combined : List Nat),
    b64decode key_base64 = some key_bytes →
    b64decode ciphertext_base64 = some combined →
    combined.length < 12 →
    decrypt_aes ext ciphertext_base64 key_base64 =
      .err "Invalid ciphertext length" := by
  intro ext ciphertext_base64 key_base64 key_bytes combined hk hc hlen
  simp only [decrypt_aes, hk, hc, if_pos hlen]

/-- C2 witness: a 3-byte envelope with a 32-byte key is rejected with the
length error. -/
theorem decrypt_aes_short_envelope_witness :
    decrypt_aes dummyExtCrypto (b64encode (List.replicate 3 0))
      (b64encode (List.replicate 32 0)) = .err "Invalid ciphertext length" :=
  decrypt_aes_short_envelope dummyExtCrypto (b64encode (List.replicate 3 0))
    (b64encode (List.replicate 32 0)) (List.replicate 32 0)
    (List.replicate 3 0)
    (b64_roundtrip (List.replicate 32 0) (by decide))
    (b64_roundtrip (List.replicate 3 0) (by decide)) (by decide)

/-- C1 (code evaluated at the failing inputs): a key that is valid base64
but decodes to 16 bytes makes `encrypt_aes` and `decrypt_aes` hit the
`Key::<Aes256Gcm>::from_slice` length panic instead of returning the
descriptive key error the specification requires. -/
theorem aes_wrong_key_length_aborts :
    encrypt_aes dummyExtCrypto [] (b64encode (List.replicate 16 0))
      (List.replicate 12 0) =
      .aborted "GenericArray.from_slice: slice length mismatch" ∧
    decrypt_aes dummyExtCrypto (b64encode (List.replicate 12 0))
      (b64encode (List.replicate 16 0)) =
      .aborted "GenericArray.from_slice: slice length mismatch" := by
  constructor <;> decide

/-- C4: `verify_ed25519` returns a boolean exactly when the signature and
public key decode from base64 and pass library parsing; the boolean is the
library's verification verdict (so a well-formed non-matching signature is
`ok false`); any malformed input yields an error value instead. -/
theorem verify_ed25519_spec :
    ∀ (ext : ExtCrypto) (message : List Nat)
      (signature_base64 public_key_base64 : List Char),
    (∀ sb sig pb pk,
      b64decode signature_base64 = some sb → ext.sigParse sb = some sig →
      b64decode public_key_base64 = some pb → ext.pubParse pb = some pk →
      verify_ed25519 ext message signature_base64 public_key_base64 =
        .ok (ext.edVerify pk message sig)) ∧
    ((¬ ∃ sb sig pb pk,
        b64decode signature_base64 = some sb ∧ ext.sigParse sb = some sig ∧
        b64decode public_key_base64 = some pb ∧ ext.pubParse pb = some pk) →
      ∃ e, verify_ed25519 ext message signature_base64 public_key_base64 =
        .err e) := by
  intro ext message signature_base64 public_key_base64
  constructor
  · intro sb sig pb pk hsb hsig hpb hpk
    simp only [verify_ed25519, hsb, hsig, hpb, hpk]
  · intro hnwf
    cases hsb : b64decode signature_base64 with
    | none => exact ⟨"Invalid signature", by simp only [verify_ed25519, hsb]⟩
    | some sb =>
      cases hsig : ext.sigParse sb with
      | none =>
        cases hpb : b64decode public_key_base64 with
        | none =>
          exact ⟨"Invalid public key", by simp only [verify_ed25519, hsb, hpb]⟩
        | some pb =>
          exact ⟨"Invalid signature format",
            by simp only [verify_ed25519, hsb, hpb, hsig]⟩
      | some sig =>
        cases hpb : b64decode public_key_base64 with
        | none =>
          exact ⟨"Invalid public key", by simp only [verify_ed25519, hsb, hpb]⟩
        | some pb =>
          cases hpk : ext.pubParse pb with
          | none =>
            exact ⟨"Invalid public key format",
              by simp only [verify_ed25519, hsb, hpb, hsig, hpk]⟩
          | some pk =>
            exact absurd ⟨sb, sig, pb, pk, hsb, hsig, hpb, hpk⟩ hnwf

/-- C4 witness: a well-formed 64-byte signature and 32-byte public key
that do not match the message give `ok false`, not an error. -/
theorem verify_ed25519_spec_witness :
    verify_ed25519 dummyExtCrypto [] (b64encode (List.replicate 64 0))
      (b64encode (List.replicate 32 0)) = .ok false :=
  (verify_ed25519_spec dummyExtCrypto [] (b64encode (List.replicate 64 0))
      (b64encode (List.replicate 32 0))).1
    (List.replicate 64 0) (List.replicate 64 0) (List.replicate 32 0)
    (List.replicate 32 0)
    (b64_roundtrip (List.replicate 64 0) (by decide)) (by decide)
    (b64_roundtrip (List.replicate 32 0) (by decide)) (by decide)

/-- C7: for UTF-8 text `m` and a key produced by `generate_aes_key`,
`encrypt_aes` returns the base64 encoding of the 12-byte nonce followed by
the AEAD ciphertext, and `decrypt_aes` with the same key splits the first
12 decoded bytes off as the nonce, decrypts the rest and returns `m`. -/
theorem encrypt_decrypt_roundtrip :
    ∀ (ext : ExtCrypto) (m keyRaw nonce ct : List Nat),
    isBytes m → isBytes keyRaw → isBytes nonce →
    keyRaw.length = 32 → nonce.length = 12 →
    ext.aeadEncrypt keyRaw nonce m = some ct →
    ext.fromUtf8 m = some m →
    encrypt_aes ext m (generate_aes_key keyRaw) nonce =
      .ok (b64encode (nonce ++ ct)) ∧
    decrypt_aes ext (b64encode (nonce ++ ct)) (generate_aes_key keyRaw) =
      .ok m := by
  intro ext m keyRaw nonce ct hm hkb hnb hklen hnlen henc hutf
  have hkd : b64decode (generate_aes_key keyRaw) = some keyRaw :=
    b64_roundtrip keyRaw hkb
  have hctb : isBytes ct := ext.aeadEncrypt_bytes _ _ _ _ hm henc
  have hcombb : isBytes (nonce ++ ct) := by
    intro x hx
    rcases List.mem_append.mp hx with h | h
    exacts [hnb x h, hctb x h]
  have hcd : b64decode (b64encode (nonce ++ ct)) = some (nonce ++ ct) :=
    b64_roundtrip _ hcombb
  constructor
  · simp only [encrypt_aes, hkd, if_pos hklen, henc]
  · have hlen : ¬ (nonce ++ ct).length < 12 := by
      rw [List.length_append, hnlen]; omega
    have htake : (nonce ++ ct).take 12 = nonce := by
      rw [← hnlen]; exact List.take_left nonce ct
    have hdrop : (nonce ++ ct).drop 12 = ct := by
      rw [← hnlen]; exact List.drop_left nonce ct
    have hdec : ext.aeadDecrypt keyRaw nonce ct = some m :=
      ext.aead_roundtrip _ _ _ _ henc
    simp only [decrypt_aes, hkd, hcd, if_neg hlen, if_pos hklen, htake,
      hdrop, hdec, hutf]

/-- C7 witness: the round trip at the UTF-8 bytes of "hi" and a fresh
all-zero 32-byte key. -/
theorem encrypt_decrypt_roundtrip_witness :
    encrypt_aes dummyExtCrypto [104, 105]
      (generate_aes_key (List.replicate 32 0)) (List.replicate 12 0) =
      .ok (b64encode (List.replicate 12 0 ++ [104, 105])) ∧
    decrypt_aes dummyExtCrypto (b64encode (List.replicate 12 0 ++ [104, 105]))
      (generate_aes_key (List.replicate 32 0)) = .ok [104, 105] :=
  encrypt_decrypt_roundtrip dummyExtCrypto [104, 105] (List.replicate 32 0)
    (List.replicate 12 0) [104, 105] (by decide) (by decide) (by decide)
    (by decide) (by decide) rfl rfl

/-- C9: `derive_key_pbkdf2` is total — for every password, salt and
iteration count (zero included, no validation is performed) it returns a
base64 string that decodes to exactly the 32 derived bytes. -/
theorem derive_key_pbkdf2_total :
    ∀ (ext : ExtCrypto) (password salt : List Nat) (iterations : Nat),
    b64decode (derive_key_pbkdf2 ext password salt iterations) =
      some (ext.pbkdf2Hmac password salt iterations 32) ∧
    (ext.pbkdf2Hmac password salt iterations 32).length = 32 := by
  intro ext password salt iterations
  exact ⟨b64_roundtrip _ (ext.pbkdf2_bytes password salt iterations 32),
    ext.pbkdf2_length password salt iterations 32⟩

/-- C8: `from_base64` inverts `to_base64` on every byte buffer, with no
validation of the decoded bytes as an image. -/
theorem from_to_base64_roundtrip :
    ∀ b : List Nat, isBytes b → from_base64 (to_base64 b) = .ok b := by
  intro b hb
  simp only [from_base64, to_base64, b64_roundtrip b hb]

/-- C8 witness: the round trip on a 4-byte buffer that is no valid image. -/
theorem from_to_base64_roundtrip_witness :
    from_base64 (to_base64 [0, 255, 17, 100]) = .ok [0, 255, 17, 100] :=
  from_to_base64_roundtrip [0, 255, 17, 100] (by decide)
